import Mathlib

/-!
# Clock bring-up and timekeeping of the STM32F407 runtime

A shallow embedding of `src/runtime/runtime_stm32f407.go`:

* the timer half (`initTIM3`, `initTIM7`, `sleepTicks`, `ticks`, `timerSleep`,
  `handleTIM3`, `handleTIM7`) is a state machine over the registers of TIM3 and TIM7
  and the two package variables `tickCount` and `timerWakeup`;
* `initCLK` is a function of the values its volatile register reads return, which
  produces the list of register writes it performs.

Registers hold unsigned 32-bit values, represented as `Nat`; where the source
arithmetic can leave the range, the reduction modulo `2 ^ 32` is explicit.
-/

namespace Stm32f407

/-! ## Constants of package `device/stm32` -/

/-- Bit masks, bit positions and interrupt numbers that the source takes from package
`device/stm32`.  That package is generated from the vendor description of the chip and is
not part of the unit, so its values are parameters of the development. -/
structure DeviceConsts where
  RCC_CR_HSION : Nat
  RCC_CR_HSIRDY : Nat
  RCC_CR_HSEON : Nat
  RCC_CR_HSERDY : Nat
  RCC_CR_PLLON : Nat
  RCC_CR_PLLRDY : Nat
  RCC_APB1ENR_PWREN : Nat
  RCC_APB1ENR_TIM3EN : Nat
  RCC_APB1ENR_TIM7EN : Nat
  RCC_CFGR_HPRE_Pos : Nat
  RCC_CFGR_PPRE2_Pos : Nat
  RCC_CFGR_PPRE1_Pos : Nat
  RCC_CFGR_SW0 : Nat
  RCC_CFGR_SW1 : Nat
  RCC_CFGR_SW0_Pos : Nat
  RCC_CFGR_SWS0_Pos : Nat
  RCC_PLLCFGR_PLLSRC_Pos : Nat
  FLASH_ACR_ICEN : Nat
  FLASH_ACR_DCEN : Nat
  FLASH_ACR_LATENCY_Pos : Nat
  TIM_DIER_UIE : Nat
  TIM_CR1_CEN : Nat
  TIM_SR_UIF : Nat
  IRQ_TIM3 : Nat
  IRQ_TIM7 : Nat

/-- The values the reference manual of the STM32F407 (RM0090) gives to the constants; used
as the concrete instance wherever a statement is evaluated. -/
def stm32f407 : DeviceConsts where
  RCC_CR_HSION := 0x1
  RCC_CR_HSIRDY := 0x2
  RCC_CR_HSEON := 0x10000
  RCC_CR_HSERDY := 0x20000
  RCC_CR_PLLON := 0x1000000
  RCC_CR_PLLRDY := 0x2000000
  RCC_APB1ENR_PWREN := 0x10000000
  RCC_APB1ENR_TIM3EN := 0x2
  RCC_APB1ENR_TIM7EN := 0x20
  RCC_CFGR_HPRE_Pos := 4
  RCC_CFGR_PPRE2_Pos := 13
  RCC_CFGR_PPRE1_Pos := 10
  RCC_CFGR_SW0 := 0x1
  RCC_CFGR_SW1 := 0x2
  RCC_CFGR_SW0_Pos := 0
  RCC_CFGR_SWS0_Pos := 2
  RCC_PLLCFGR_PLLSRC_Pos := 22
  FLASH_ACR_ICEN := 0x200
  FLASH_ACR_DCEN := 0x400
  FLASH_ACR_LATENCY_Pos := 0
  TIM_DIER_UIE := 0x1
  TIM_CR1_CEN := 0x1
  TIM_SR_UIF := 0x1
  IRQ_TIM3 := 29
  IRQ_TIM7 := 55

/-! ## Integer types -/

/-- A fixed-width Go integer type: its width in bits and whether it is signed. -/
structure IntTy where
  bits : Nat
  signed : Bool
  deriving DecidableEq, Repr

namespace IntTy

/-- The largest value of the type. -/
def maxVal (t : IntTy) : Int :=
  if t.signed then 2 ^ (t.bits - 1) - 1 else 2 ^ t.bits - 1

/-- The smallest value of the type. -/
def minVal (t : IntTy) : Int :=
  if t.signed then -(2 ^ (t.bits - 1)) else 0

/-- Reduction of a mathematical integer to the type, the way Go arithmetic wraps around. -/
def wrap (t : IntTy) (x : Int) : Int :=
  if t.signed then (x + 2 ^ (t.bits - 1)) % 2 ^ t.bits - 2 ^ (t.bits - 1)
  else x % 2 ^ t.bits

end IntTy

/-- Go's `int64`. -/
def int64 : IntTy := ⟨64, true⟩

/-- Go's `uint64`. -/
def uint64 : IntTy := ⟨64, false⟩

/-- The conversion `uint32(d)` of an integer value: the low 32 bits. -/
def toUint32 (d : Int) : Nat := (d % 2 ^ 32).toNat

/-- The Go operator `x &^ y` (bit clear) on register values: the bits of `x` that are not
set in `y`, computed by flipping in `x` the bits that `x` and `y` share. -/
def andNot (x y : Nat) : Nat := x ^^^ (x &&& y)

/-! ## The timer state machine -/

/-- The registers of one basic timer that the unit touches. -/
structure TIM_Type where
  CR1 : Nat
  DIER : Nat
  SR : Nat
  PSC : Nat
  ARR : Nat

/-- Everything the timer half of the unit reads or writes: `RCC.APB1ENR`, the two timers,
the interrupt controller as seen through `arm.SetPriority` and `arm.EnableIRQ`, and the
package variables `tickCount` and `timerWakeup`. -/
structure State where
  RCC_APB1ENR : Nat
  TIM3 : TIM_Type
  TIM7 : TIM_Type
  priority : Nat → Nat
  irqEnabled : Nat → Bool
  tickCount : Int
  timerWakeup : Bool

/-- `const tickMicros = 1000`. -/
def tickMicros : Nat := 1000

/-- `arm.SetPriority(irq, p)`: the interrupt controller records `p` for `irq`. -/
def SetPriority (s : State) (irq p : Nat) : State :=
  { s with priority := fun i => if i = irq then p else s.priority i }

/-- `arm.EnableIRQ(irq)`. -/
def EnableIRQ (s : State) (irq : Nat) : State :=
  { s with irqEnabled := fun i => if i = irq then true else s.irqEnabled i }

/-- `initTIM3`: enable the TIM3 clock, register priority `0xc3`, enable the interrupt. -/
def initTIM3 (c : DeviceConsts) (s : State) : State :=
  let s := { s with RCC_APB1ENR := s.RCC_APB1ENR ||| c.RCC_APB1ENR_TIM3EN }
  let s := SetPriority s c.IRQ_TIM3 0xc3
  EnableIRQ s c.IRQ_TIM3

/-- `initTIM7`: enable the TIM7 clock, program prescaler and reload, enable the update
interrupt and the counter, register priority `0xc1`, enable the interrupt. -/
def initTIM7 (c : DeviceConsts) (s : State) : State :=
  let s := { s with RCC_APB1ENR := s.RCC_APB1ENR ||| c.RCC_APB1ENR_TIM7EN }
  let s := { s with TIM7 := { s.TIM7 with PSC := 84000000 / 10000 - 1 } }
  let s := { s with TIM7 := { s.TIM7 with ARR := 10 - 1 } }
  let s := { s with TIM7 := { s.TIM7 with DIER := s.TIM7.DIER ||| c.TIM_DIER_UIE } }
  let s := { s with TIM7 := { s.TIM7 with CR1 := s.TIM7.CR1 ||| c.TIM_CR1_CEN } }
  let s := SetPriority s c.IRQ_TIM7 0xc1
  EnableIRQ s c.IRQ_TIM7

/-- `ticks()`: `tickCount * 1000`, in the integer type `ty` of `timeUnit`. -/
def ticks (ty : IntTy) (s : State) : Int :=
  ty.wrap (s.tickCount * 1000)

/-- The reload value `timerSleep` computes from its argument: `arr := (ticks / 100) - 1` in
unsigned 32-bit arithmetic, replaced by `1` when it is `0`. -/
def timerSleepReload (ticks : Nat) : Nat :=
  let arr := (ticks / 100 + 2 ^ 32 - 1) % 2 ^ 32
  if arr = 0 then 1 else arr

/-- The straight-line part of `timerSleep` (up to and including the write that starts the
counter): clear `timerWakeup`, program prescaler and reload of TIM3, enable the update
interrupt and the counter. -/
def timerSleepArm (c : DeviceConsts) (s : State) (ticks : Nat) : State :=
  let s := { s with timerWakeup := false }
  let s := { s with TIM3 := { s.TIM3 with PSC := 84000000 / 10000 - 1 } }
  let s := { s with TIM3 := { s.TIM3 with ARR := timerSleepReload ticks } }
  let s := { s with TIM3 := { s.TIM3 with DIER := s.TIM3.DIER ||| c.TIM_DIER_UIE } }
  { s with TIM3 := { s.TIM3 with CR1 := s.TIM3.CR1 ||| c.TIM_CR1_CEN } }

/-- The five statements of the straight-line part of `timerSleep`, one at a time, for
executions in which an interrupt arrives between two of them: statement 0 clears
`timerWakeup`, 1 writes `TIM3.PSC`, 2 writes `TIM3.ARR`, 3 sets `TIM_DIER_UIE` and 4 sets
`TIM_CR1_CEN`. -/
def timerSleepStmt (c : DeviceConsts) (s : State) (ticks : Nat) (i : Nat) : State :=
  if i = 0 then { s with timerWakeup := false }
  else if i = 1 then { s with TIM3 := { s.TIM3 with PSC := 84000000 / 10000 - 1 } }
  else if i = 2 then { s with TIM3 := { s.TIM3 with ARR := timerSleepReload ticks } }
  else if i = 3 then { s with TIM3 := { s.TIM3 with DIER := s.TIM3.DIER ||| c.TIM_DIER_UIE } }
  else if i = 4 then { s with TIM3 := { s.TIM3 with CR1 := s.TIM3.CR1 ||| c.TIM_CR1_CEN } }
  else s

/-- `handleTIM3` (the TIM3 interrupt handler). -/
def handleTIM3 (c : DeviceConsts) (s : State) : State :=
  if s.TIM3.SR &&& c.TIM_SR_UIF > 0 then
    let s := { s with TIM3 := { s.TIM3 with CR1 := andNot s.TIM3.CR1 c.TIM_CR1_CEN } }
    let s := { s with TIM3 := { s.TIM3 with SR := andNot s.TIM3.SR c.TIM_SR_UIF } }
    { s with timerWakeup := true }
  else s

/-- `handleTIM7` (the TIM7 interrupt handler); `tickCount++` wraps in the type `ty`. -/
def handleTIM7 (c : DeviceConsts) (ty : IntTy) (s : State) : State :=
  if s.TIM7.SR &&& c.TIM_SR_UIF > 0 then
    let s := { s with TIM7 := { s.TIM7 with SR := andNot s.TIM7.SR c.TIM_SR_UIF } }
    { s with tickCount := ty.wrap (s.tickCount + 1) }
  else s

/-- What can happen between two steps of the main program while `timerSleep` waits in
`wfi`, and more generally at any instruction boundary: the hardware changes the status
register of a timer, or one of the two handlers runs. -/
inductive Event where
  | hwTIM3 (sr : Nat)
  | hwTIM7 (sr : Nat)
  | irqTIM3
  | irqTIM7

/-- The effect of one event. -/
def Event.apply (c : DeviceConsts) (ty : IntTy) (s : State) : Event → State
  | .hwTIM3 sr => { s with TIM3 := { s.TIM3 with SR := sr } }
  | .hwTIM7 sr => { s with TIM7 := { s.TIM7 with SR := sr } }
  | .irqTIM3 => handleTIM3 c s
  | .irqTIM7 => handleTIM7 c ty s

/-- The loop `for !timerWakeup { wfi }`: each `wfi` lets one event through.  The result is
`none` when the events run out while the flag is still false (the loop is still waiting). -/
def timerSleepWait (c : DeviceConsts) (ty : IntTy) : State → List Event → Option (State × List Event)
  | s, [] => if s.timerWakeup then some (s, []) else none
  | s, e :: es =>
    if s.timerWakeup then some (s, e :: es) else timerSleepWait c ty (e.apply c ty s) es

/-- `timerSleep(ticks)`: arm TIM3, then wait for the wake flag. -/
def timerSleep (c : DeviceConsts) (ty : IntTy) (s : State) (ticks : Nat) (es : List Event) :
    Option (State × List Event) :=
  timerSleepWait c ty (timerSleepArm c s ticks) es

/-- `sleepTicks(d)`: `timerSleep(uint32(d))`. -/
def sleepTicks (c : DeviceConsts) (ty : IntTy) (s : State) (d : Int) (es : List Event) :
    Option (State × List Event) :=
  timerSleep c ty s (toUint32 d) es

/-- One atomic step of the unit, as seen from outside: a call of an initialiser, the
arming sequence of `timerSleep` (directly or through `sleepTicks`) as a whole or one of
its statements, one turn of its wait loop, a call of `ticks`, or an event. -/
inductive Op where
  | initTIM3
  | initTIM7
  | timerSleepArm (ticks : Nat)
  | sleepTicksArm (d : Int)
  | timerSleepStmt (ticks : Nat) (i : Nat)
  | waitPoll
  | ticks
  | event (e : Event)

/-- The state after one step. -/
def step (c : DeviceConsts) (ty : IntTy) (s : State) : Op → State
  | .initTIM3 => initTIM3 c s
  | .initTIM7 => initTIM7 c s
  | .timerSleepArm d => timerSleepArm c s d
  | .sleepTicksArm d => timerSleepArm c s (toUint32 d)
  | .timerSleepStmt d i => timerSleepStmt c s d i
  | .waitPoll => s
  | .ticks => s
  | .event e => e.apply c ty s

/-- The state after a sequence of steps. -/
def run (c : DeviceConsts) (ty : IntTy) (s : State) (ops : List Op) : State :=
  ops.foldl (step c ty) s

/-- A state at boot: Go zero-initialises the package variables; the registers are given. -/
def bootState (apb1enr : Nat) (tim3 tim7 : TIM_Type) : State where
  RCC_APB1ENR := apb1enr
  TIM3 := tim3
  TIM7 := tim7
  priority := fun _ => 0
  irqEnabled := fun _ => false
  tickCount := 0
  timerWakeup := false

/-- The reset values of a timer's registers. -/
def resetTIM : TIM_Type := ⟨0, 0, 0, 0, 0xFFFF⟩

/-! ## `initCLK` -/

/-- `HSE_STARTUP_TIMEOUT = 0x0500`. -/
def HSE_STARTUP_TIMEOUT : Nat := 0x0500

/-- `PLL_M = 8`. -/
def PLL_M : Nat := 8

/-- `PLL_N = 336`. -/
def PLL_N : Nat := 336

/-- `PLL_P = 2`. -/
def PLL_P : Nat := 2

/-- `PLL_Q = 7`. -/
def PLL_Q : Nat := 7

/-- The registers `initCLK` writes. -/
inductive Reg where
  | RCC_CR
  | RCC_CFGR
  | RCC_PLLCFGR
  | RCC_CIR
  | RCC_APB1ENR
  | RCC_AHB1ENR
  | PWR_CR
  | FLASH_ACR
  deriving DecidableEq, Repr

/-- The progress of one execution of `initCLK`: how many volatile register reads it has
performed, the register writes it has performed (oldest first), and how many times the
loop that waits for the external oscillator has read `RCC.CR`. -/
structure ClkRun where
  reads : Nat
  writes : List (Reg × Nat)
  hsePolls : Nat
  deriving DecidableEq, Repr

/-- One volatile read has been performed. -/
def ClkRun.tick (m : ClkRun) : ClkRun := { m with reads := m.reads + 1 }

/-- A register write. -/
def ClkRun.write (m : ClkRun) (r : Reg) (v : Nat) : ClkRun :=
  { m with writes := m.writes ++ [(r, v)] }

/-- A read-modify-write statement such as `reg |= mask`: one volatile read, whose value
the hardware supplies (`rd n` is what the `n`-th read of the execution returns), and one
write. -/
def ClkRun.modify (rd : Nat → Nat) (m : ClkRun) (r : Reg) (f : Nat → Nat) : ClkRun :=
  m.tick.write r (f (rd m.reads))

/-- A loop `for cond(reg) { }` with an empty body: read until the condition is false.
`none` when `fuel` reads were not enough. -/
def spin (rd : Nat → Nat) (busy : Nat → Bool) : Nat → ClkRun → Option ClkRun
  | 0, _ => none
  | fuel + 1, m => if busy (rd m.reads) then spin rd busy fuel m.tick else some m.tick

/-- The loop that waits for the external oscillator: increment `startupCounter` (an
unsigned 32-bit variable), read `RCC.CR`, and leave when `RCC_CR_HSERDY` is set or the
counter equals `HSE_STARTUP_TIMEOUT`.  The result is the final counter and the progress;
`none` when `fuel` turns of the loop were not enough. -/
def hseLoop (c : DeviceConsts) (rd : Nat → Nat) : Nat → Nat → ClkRun → Option (Nat × ClkRun)
  | 0, _, _ => none
  | fuel + 1, startupCounter, m =>
    let startupCounter := (startupCounter + 1) % 2 ^ 32
    if rd m.reads &&& c.RCC_CR_HSERDY ≠ 0 ∨ startupCounter = HSE_STARTUP_TIMEOUT then
      some (startupCounter, { m.tick with hsePolls := m.hsePolls + 1 })
    else hseLoop c rd fuel startupCounter { m.tick with hsePolls := m.hsePolls + 1 }

/-- The loops of `initCLK`. -/
inductive WaitLoop where
  | hsi
  | hse
  | pll
  | sws
  deriving DecidableEq, Repr

/-- How an execution of `initCLK` ends: it returns, it enters the empty `for { }` of the
failure branch, or it is still inside one of its polling loops when the fuel is used up
(for the loops without a bound this stands for a loop that may never end; the progress
given is the one at the entry of the loop). -/
inductive Outcome where
  | returned (m : ClkRun)
  | halted (m : ClkRun)
  | waiting (w : WaitLoop) (m : ClkRun)
  deriving DecidableEq, Repr

/-- The value `initCLK` writes to `RCC.PLLCFGR` on the success path. -/
def pllcfgrValue (c : DeviceConsts) : Nat :=
  PLL_M ||| (PLL_N <<< 6) ||| (((PLL_P >>> 1) - 1) <<< 16) |||
    (1 <<< c.RCC_PLLCFGR_PLLSRC_Pos) ||| (PLL_Q <<< 24)

/-- The code `0x0` that `initCLK` puts in the AHB divider field (`HCLK = SYSCLK / 1`). -/
def HPRE_code : Nat := 0x0

/-- The code `0x4` that `initCLK` puts in the APB2 divider field (`PCLK2 = HCLK / 2`). -/
def PPRE2_code : Nat := 0x4

/-- The code `0x5` that `initCLK` puts in the APB1 divider field (`PCLK1 = HCLK / 4`). -/
def PPRE1_code : Nat := 0x5

/-- The branch of `initCLK` taken when `RCC_CR_HSERDY` is set, followed by the statement
after the `if` (the CCM RAM clock enable). -/
def initCLK_configure (c : DeviceConsts) (rd : Nat → Nat) (fuel : Nat) (m : ClkRun) : Outcome :=
  let m := m.modify rd .RCC_APB1ENR (fun v => v ||| c.RCC_APB1ENR_PWREN)
  let m := m.modify rd .PWR_CR (fun v => v ||| 0x4000)
  let m := m.modify rd .RCC_CFGR (fun v => v ||| (HPRE_code <<< c.RCC_CFGR_HPRE_Pos))
  let m := m.modify rd .RCC_CFGR (fun v => v ||| (PPRE2_code <<< c.RCC_CFGR_PPRE2_Pos))
  let m := m.modify rd .RCC_CFGR (fun v => v ||| (PPRE1_code <<< c.RCC_CFGR_PPRE1_Pos))
  let m := m.write .RCC_PLLCFGR (pllcfgrValue c)
  let m := m.modify rd .RCC_CR (fun v => v ||| c.RCC_CR_PLLON)
  match spin rd (fun v => v &&& c.RCC_CR_PLLRDY == 0) fuel m with
  | none => .waiting .pll m
  | some m =>
    let m := m.write .FLASH_ACR
      (c.FLASH_ACR_ICEN ||| c.FLASH_ACR_DCEN ||| (5 <<< c.FLASH_ACR_LATENCY_Pos))
    let m := m.modify rd .RCC_CFGR (fun v => andNot v (c.RCC_CFGR_SW0 ||| c.RCC_CFGR_SW1))
    let m := m.modify rd .RCC_CFGR (fun v => v ||| (0x2 <<< c.RCC_CFGR_SW0_Pos))
    match spin rd (fun v => v &&& (0x3 <<< c.RCC_CFGR_SWS0_Pos) != 0x2 <<< c.RCC_CFGR_SWS0_Pos)
        fuel m with
    | none => .waiting .sws m
    | some m => .returned (m.modify rd .RCC_AHB1ENR (fun v => v ||| (1 <<< 20)))

/-- The part of `initCLK` from the write of `RCC_CR_HSEON` on: the bounded wait for the
external oscillator, then the test of `RCC_CR_HSERDY` that chooses between configuring the
clock tree and halting. -/
def initCLK_hse (c : DeviceConsts) (rd : Nat → Nat) (fuel : Nat) (m : ClkRun) : Outcome :=
  let m := m.write .RCC_CR c.RCC_CR_HSEON
  match hseLoop c rd fuel 0 m with
  | none => .waiting .hse m
  | some (_, m) =>
    if rd m.reads &&& c.RCC_CR_HSERDY ≠ 0 then initCLK_configure c rd fuel m.tick
    else .halted m.tick

/-- The part of `initCLK` before the external oscillator is switched on: switch the internal
oscillator on, wait for it, and put the clock registers in their reset state. -/
def initCLK_reset (c : DeviceConsts) (rd : Nat → Nat) (fuel : Nat) : Option ClkRun :=
  let m : ClkRun := ⟨0, [], 0⟩
  let m := m.modify rd .RCC_CR (fun v => v ||| c.RCC_CR_HSION)
  match spin rd (fun v => v &&& c.RCC_CR_HSIRDY == 0) fuel m with
  | none => none
  | some m =>
    let m := m.write .RCC_CFGR 0x00000000
    let m := m.modify rd .RCC_CR (fun v => v &&& 0xFEF6FFFF)
    let m := m.write .RCC_PLLCFGR 0x24003010
    let m := m.modify rd .RCC_CR (fun v => v &&& 0xFFFBFFFF)
    some (m.write .RCC_CIR 0x00000000)

/-- `initCLK`, as a function of the values `rd` that its volatile reads return and of the
number `fuel` of turns each polling loop is followed for. -/
def initCLK (c : DeviceConsts) (rd : Nat → Nat) (fuel : Nat) : Outcome :=
  match initCLK_reset c rd fuel with
  | none => .waiting .hsi ⟨1, [(.RCC_CR, rd 0 ||| c.RCC_CR_HSION)], 0⟩
  | some m => initCLK_hse c rd fuel m

/-- The values read by an execution on hardware that behaves: every register reads back
what was last written to it, and each ready or status flag is already set at the first
poll (the internal oscillator at read 1, the external one at read 4, the PLL at read 12,
the clock switch at read 15). -/
def readyRd : Nat → Nat
  | 0 => 0x83
  | 1 => 0x83
  | 2 => 0x83
  | 3 => 0x83
  | 4 => 0x30083
  | 5 => 0x30083
  | 8 => 0x0
  | 9 => 0x0
  | 10 => 0x8000
  | 11 => 0x30083
  | 12 => 0x3030083
  | 13 => 0x9400
  | 14 => 0x9400
  | 15 => 0x940A
  | _ => 0

/-- The values read by an execution in which the internal oscillator is ready at once and
the external oscillator never becomes ready. -/
def deadHseRd : Nat → Nat := fun _ => 0x83

/-- The values read by an execution in which the internal oscillator is ready at once and
`RCC_CR_HSERDY` shows in exactly one read of `RCC.CR`, the third poll of the wait for the
external oscillator (read 6: reads 4, 5 and 6 are the first three polls), and is clear
again in the read that follows. -/
def flickerRd : Nat → Nat := fun n => if n = 6 then 0x20083 else 0x83

/-! ## Quantities the statements are about -/

/-- Whether a step is a run of `handleTIM7` that finds the TIM7 update flag set. -/
def firesTick (c : DeviceConsts) (s : State) : Op → Bool
  | .event .irqTIM7 => decide (s.TIM7.SR &&& c.TIM_SR_UIF > 0)
  | _ => false

/-- Whether a step is a run of `handleTIM3` that finds the TIM3 update flag set. -/
def firesWake (c : DeviceConsts) (s : State) : Op → Bool
  | .event .irqTIM3 => decide (s.TIM3.SR &&& c.TIM_SR_UIF > 0)
  | _ => false

/-- The number of runs of `handleTIM7` with the update flag set along a sequence of steps. -/
def tickFirings (c : DeviceConsts) (ty : IntTy) : State → List Op → Nat
  | _, [] => 0
  | s, op :: ops => (if firesTick c s op then 1 else 0) + tickFirings c ty (step c ty s op) ops

/-- The number of runs of `handleTIM3` with the update flag set along a sequence of steps. -/
def wakeFirings (c : DeviceConsts) (ty : IntTy) : State → List Op → Nat
  | _, [] => 0
  | s, op :: ops => (if firesWake c s op then 1 else 0) + wakeFirings c ty (step c ty s op) ops

/-- The hardware raises the TIM7 update flag and `handleTIM7` runs, `n` times over. -/
def tickBurst : Nat → List Op
  | 0 => []
  | n + 1 => .event (.hwTIM7 1) :: .event .irqTIM7 :: tickBurst n

/-- The progress recorded in an outcome. -/
def Outcome.progress : Outcome → ClkRun
  | .returned m => m
  | .halted m => m
  | .waiting _ m => m

/-- Whether an outcome is the halt in the failure branch. -/
def Outcome.isHalted : Outcome → Bool
  | .halted _ => true
  | _ => false

/-- The frequency of the external oscillator in Hz (`HSE 8mhz` in the table of clock
settings above `initCLK`). -/
def HSE_VALUE : Nat := 8000000

/-- The division factor M of the PLL: bits 5:0 of `RCC.PLLCFGR`. -/
def pllM (v : Nat) : Nat := v &&& 0x3F

/-- The multiplication factor N of the PLL: bits 14:6 of `RCC.PLLCFGR`. -/
def pllN (v : Nat) : Nat := (v >>> 6) &&& 0x1FF

/-- The division factor P of the PLL: bits 17:16 of `RCC.PLLCFGR` hold `P / 2 - 1`. -/
def pllP (v : Nat) : Nat := 2 * (((v >>> 16) &&& 0x3) + 1)

/-- Whether the PLL is fed by the external oscillator: bit 22 of `RCC.PLLCFGR`. -/
def pllSrcIsHSE (v : Nat) : Bool := (v >>> 22) &&& 1 == 1

/-- The output of the PLL for a value of `RCC.PLLCFGR`:
`PLL_VCO = (HSE_VALUE / PLL_M) * PLL_N`, `SYSCLK = PLL_VCO / PLL_P`. -/
def pllOutput (v : Nat) : Nat := HSE_VALUE / pllM v * pllN v / pllP v

/-- The AHB division factor for a code of the field HPRE: codes below 8 do not divide, codes
8 to 11 divide by 2, 4, 8, 16 and codes 12 to 15 by 64, 128, 256, 512. -/
def ahbPrescaler (code : Nat) : Nat :=
  if code < 8 then 1 else if code < 12 then 2 ^ (code - 7) else 2 ^ (code - 6)

/-- The APB division factor for a code of the fields PPRE1 and PPRE2: codes below 4 do not
divide, codes 4 to 7 divide by 2, 4, 8, 16. -/
def apbPrescaler (code : Nat) : Nat :=
  if code < 4 then 1 else 2 ^ (code - 3)

/-- The field HPRE of a value of `RCC.CFGR` (bits 7:4). -/
def cfgrHPRE (v : Nat) : Nat := (v >>> 4) &&& 0xF

/-- The field PPRE1 of a value of `RCC.CFGR` (bits 12:10). -/
def cfgrPPRE1 (v : Nat) : Nat := (v >>> 10) &&& 0x7

/-- The field PPRE2 of a value of `RCC.CFGR` (bits 15:13). -/
def cfgrPPRE2 (v : Nat) : Nat := (v >>> 13) &&& 0x7

/-- SYSCLK on the success path of `initCLK`. -/
def sysclk (c : DeviceConsts) : Nat := pllOutput (pllcfgrValue c)

/-- HCLK on the success path of `initCLK`. -/
def hclk (c : DeviceConsts) : Nat := sysclk c / ahbPrescaler HPRE_code

/-- PCLK2, the clock of APB2, on the success path of `initCLK`. -/
def pclk2 (c : DeviceConsts) : Nat := hclk c / apbPrescaler PPRE2_code

/-- PCLK1, the clock of APB1, on the success path of `initCLK`. -/
def pclk1 (c : DeviceConsts) : Nat := hclk c / apbPrescaler PPRE1_code

/-- The rated maximum of APB2 in Hz. -/
def APB2_MAX : Nat := 84000000

/-- The rated maximum of APB1 in Hz. -/
def APB1_MAX : Nat := 42000000

/-! ## The reload value of `timerSleep` -/

/-- C1: for `100 ≤ d < 2 ^ 32` the value `timerSleep(d)` writes to `TIM3.ARR` is
`max 1 (d / 100 - 1)`. -/
theorem timerSleep_reload_ge_100 (c : DeviceConsts) (s : State) (d : Nat)
    (hd : 100 ≤ d) (h32 : d < 2 ^ 32) :
    (timerSleepArm c s d).TIM3.ARR = max 1 (d / 100 - 1) := by
  have h1 : 1 ≤ d / 100 := (Nat.one_le_div_iff (by norm_num)).2 hd
  have h2 : d / 100 < 2 ^ 32 := lt_of_le_of_lt (Nat.div_le_self d 100) h32
  simp only [timerSleepArm, timerSleepReload]
  have h3 : (d / 100 + 2 ^ 32 - 1) % 2 ^ 32 = d / 100 - 1 := by
    have : d / 100 + 2 ^ 32 - 1 = (d / 100 - 1) + 2 ^ 32 := by omega
    rw [this, Nat.add_mod_right, Nat.mod_eq_of_lt (by omega)]
  rw [h3]
  split_ifs with h0
  · rw [h0]; rfl
  · have : 1 ≤ d / 100 - 1 := by omega
    exact (max_eq_right this).symm

/-- C1, at the two durations the specification names: `timerSleep(250)` programs reload `1`
and `timerSleep(1000)` programs reload `9`. -/
theorem timerSleep_reload_ge_100_witness :
    (100 ≤ 250 ∧ 250 < 2 ^ 32 ∧
      (timerSleepArm stm32f407 (bootState 0 resetTIM resetTIM) 250).TIM3.ARR = 1) ∧
    (100 ≤ 1000 ∧ 1000 < 2 ^ 32 ∧
      (timerSleepArm stm32f407 (bootState 0 resetTIM resetTIM) 1000).TIM3.ARR = 9) :=
  ⟨⟨by decide, by norm_num,
      timerSleep_reload_ge_100 stm32f407 (bootState 0 resetTIM resetTIM) 250
        (by decide) (by norm_num)⟩,
   ⟨by decide, by norm_num,
      timerSleep_reload_ge_100 stm32f407 (bootState 0 resetTIM resetTIM) 1000
        (by decide) (by norm_num)⟩⟩

/-- The reload value for every duration below 100 microseconds is `2 ^ 32 - 1`. -/
theorem timerSleepReload_lt_100 (d : Nat) (hd : d < 100) :
    timerSleepReload d = 2 ^ 32 - 1 := by
  have h : d / 100 = 0 := Nat.div_eq_of_lt hd
  simp [timerSleepReload, h]

/-- C2, the code at durations below 100 microseconds: `(d / 100) - 1` is `0 - 1`, which
wraps around in unsigned 32-bit arithmetic, the test `arr == 0` does not fire, and
`timerSleep(d)` writes `4294967295` to `TIM3.ARR`, not `1`; in particular for
`timerSleep(50)`. -/
theorem timerSleep_reload_50 :
    (timerSleepArm stm32f407 (bootState 0 resetTIM resetTIM) 50).TIM3.ARR = 4294967295 ∧
    (timerSleepArm stm32f407 (bootState 0 resetTIM resetTIM) 50).TIM3.ARR ≠ 1 ∧
    ∀ (c : DeviceConsts) (s : State) (d : Nat), d < 100 →
      (timerSleepArm c s d).TIM3.ARR = 4294967295 := by
  refine ⟨by decide, by decide, ?_⟩
  intro c s d hd
  simp only [timerSleepArm]
  rw [timerSleepReload_lt_100 d hd]
  norm_num

/-- The reload value for a duration of at least 200 microseconds is `d / 100 - 1`. -/
theorem timerSleepReload_ge_200 (d : Nat) (hd : 200 ≤ d) (h32 : d < 2 ^ 32) :
    timerSleepReload d = d / 100 - 1 := by
  have h1 : 2 ≤ d / 100 := (Nat.le_div_iff_mul_le (by norm_num)).2 (by omega)
  have h2 : d / 100 < 2 ^ 32 := lt_of_le_of_lt (Nat.div_le_self d 100) h32
  have h3 : (d / 100 + 2 ^ 32 - 1) % 2 ^ 32 = d / 100 - 1 := by
    have : d / 100 + 2 ^ 32 - 1 = (d / 100 - 1) + 2 ^ 32 := by omega
    rw [this, Nat.add_mod_right, Nat.mod_eq_of_lt (by omega)]
  simp only [timerSleepReload, h3]
  rw [if_neg (by omega)]

/-- The reload value for a duration from 100 to 199 microseconds is `1`. -/
theorem timerSleepReload_100_199 (d : Nat) (hd : 100 ≤ d) (hd2 : d < 200) :
    timerSleepReload d = 1 := by
  have h1 : d / 100 = 1 := by omega
  simp [timerSleepReload, h1]

/-- The value `timerSleep` leaves in `TIM3.ARR` is the computed reload value. -/
theorem timerSleepArm_ARR (c : DeviceConsts) (s : State) (d : Nat) :
    (timerSleepArm c s d).TIM3.ARR = timerSleepReload d := by
  simp only [timerSleepArm]

/-- C3, refuted as stated: `timerSleep(250)` programs reload `1`, a period of
`(1 + 1) * 100 = 200` microseconds, which is shorter than the 250 requested. -/
theorem timerSleep_period_250_short :
    ¬ (250 ≤ ((timerSleepArm stm32f407 (bootState 0 resetTIM resetTIM) 250).TIM3.ARR + 1) * 100) := by
  decide

/-- C3, amended: for `100 ≤ d < 2 ^ 32` the period `(reload + 1) * 100` that `timerSleep(d)`
programs falls short of `d` by less than one count of 100 microseconds, and it reaches `d`
exactly when `d < 200` or `d` is a multiple of 100. -/
theorem timerSleep_period_within_one_count (c : DeviceConsts) (s : State) (d : Nat)
    (hd : 100 ≤ d) (h32 : d < 2 ^ 32) :
    d < ((timerSleepArm c s d).TIM3.ARR + 1) * 100 + 100 ∧
    (d ≤ ((timerSleepArm c s d).TIM3.ARR + 1) * 100 ↔ (d < 200 ∨ 100 ∣ d)) := by
  rw [timerSleepArm_ARR]
  by_cases h2 : d < 200
  · rw [timerSleepReload_100_199 d hd h2]
    constructor
    · omega
    · constructor
      · intro _; exact Or.inl h2
      · intro _; omega
  · rw [timerSleepReload_ge_200 d (by omega) h32]
    have h1 : 2 ≤ d / 100 := (Nat.le_div_iff_mul_le (by norm_num)).2 (by omega)
    have h3 : d / 100 - 1 + 1 = d / 100 := by omega
    rw [h3]
    have h4 := Nat.div_add_mod d 100
    have h5 := Nat.mod_lt d (show 0 < 100 by norm_num)
    constructor
    · omega
    · constructor
      · intro h
        right
        exact Nat.dvd_of_mod_eq_zero (by omega)
      · rintro (h | h)
        · exact absurd h h2
        · have := Nat.mod_eq_zero_of_dvd h
          omega

/-- C3, amended, at `d = 250` and `d = 1000`: the period for 250 is 200 (short by 50),
the period for 1000 is 1000. -/
theorem timerSleep_period_within_one_count_witness :
    (100 ≤ 250 ∧ 250 < 2 ^ 32 ∧
      250 < ((timerSleepArm stm32f407 (bootState 0 resetTIM resetTIM) 250).TIM3.ARR + 1) * 100 + 100) ∧
    (100 ≤ 1000 ∧ 1000 < 2 ^ 32 ∧
      1000 ≤ ((timerSleepArm stm32f407 (bootState 0 resetTIM resetTIM) 1000).TIM3.ARR + 1) * 100) :=
  ⟨⟨by decide, by norm_num,
      (timerSleep_period_within_one_count stm32f407 (bootState 0 resetTIM resetTIM) 250
        (by decide) (by norm_num)).1⟩,
   ⟨by decide, by norm_num,
      (timerSleep_period_within_one_count stm32f407 (bootState 0 resetTIM resetTIM) 1000
        (by decide) (by norm_num)).2.2 (Or.inr (by decide))⟩⟩

/-! ## The tick counter -/

theorem IntTy.wrap_eq_self (t : IntTy) (hb : 0 < t.bits) (x : Int)
    (hlo : t.minVal ≤ x) (hhi : x ≤ t.maxVal) : t.wrap x = x := by
  unfold IntTy.wrap
  unfold IntTy.minVal at hlo
  unfold IntTy.maxVal at hhi
  have hpow : (2 : Int) ^ t.bits = 2 * 2 ^ (t.bits - 1) := by
    have : t.bits = (t.bits - 1) + 1 := by omega
    conv_lhs => rw [this]
    rw [pow_succ]; ring
  have hpos : (0 : Int) < 2 ^ (t.bits - 1) := by positivity
  by_cases hs : t.signed = true
  · simp only [hs, if_true] at hlo hhi ⊢
    rw [Int.emod_eq_of_lt (by omega) (by omega)]
    ring
  · simp only [hs] at hlo hhi ⊢
    simp only [Bool.false_eq_true, if_false] at hlo hhi ⊢
    exact Int.emod_eq_of_lt hlo (by omega)

theorem IntTy.minVal_nonpos (t : IntTy) : t.minVal ≤ 0 := by
  unfold IntTy.minVal
  split_ifs
  · have : (0 : Int) < 2 ^ (t.bits - 1) := by positivity
    omega
  · exact le_refl 0

/-- Bit `i` of `x &^ y` is set exactly when it is set in `x` and clear in `y`. -/
theorem testBit_andNot (x y i : Nat) :
    (andNot x y).testBit i = (x.testBit i && !y.testBit i) := by
  simp only [andNot, Nat.testBit_xor, Nat.testBit_land]
  cases x.testBit i <;> cases y.testBit i <;> rfl

theorem andNot_and_self (x y : Nat) : andNot x y &&& y = 0 := by
  apply Nat.eq_of_testBit_eq
  intro i
  simp only [Nat.testBit_land, testBit_andNot, Nat.zero_testBit]
  cases x.testBit i <;> cases y.testBit i <;> rfl

theorem run_nil (c : DeviceConsts) (ty : IntTy) (s : State) : run c ty s [] = s := rfl

theorem run_cons (c : DeviceConsts) (ty : IntTy) (s : State) (op : Op) (ops : List Op) :
    run c ty s (op :: ops) = run c ty (step c ty s op) ops := rfl

theorem run_append (c : DeviceConsts) (ty : IntTy) (s : State) (ops1 ops2 : List Op) :
    run c ty s (ops1 ++ ops2) = run c ty (run c ty s ops1) ops2 := by
  simp [run, List.foldl_append]

theorem tickFirings_append (c : DeviceConsts) (ty : IntTy) (ops1 ops2 : List Op) :
    ∀ s : State, tickFirings c ty s (ops1 ++ ops2) =
      tickFirings c ty s ops1 + tickFirings c ty (run c ty s ops1) ops2 := by
  induction ops1 with
  | nil => intro s; simp [tickFirings, run_nil]
  | cons op ops ih =>
    intro s
    rw [List.cons_append, run_cons]
    simp only [tickFirings]
    rw [ih]
    omega

theorem wakeFirings_append (c : DeviceConsts) (ty : IntTy) (ops1 ops2 : List Op) :
    ∀ s : State, wakeFirings c ty s (ops1 ++ ops2) =
      wakeFirings c ty s ops1 + wakeFirings c ty (run c ty s ops1) ops2 := by
  induction ops1 with
  | nil => intro s; simp [wakeFirings, run_nil]
  | cons op ops ih =>
    intro s
    rw [List.cons_append, run_cons]
    simp only [wakeFirings]
    rw [ih]
    omega

/-- A step that is not a run of `handleTIM7` with the flag set leaves `tickCount` alone. -/
theorem step_tickCount_of_not_fires (c : DeviceConsts) (ty : IntTy) (s : State) (op : Op)
    (h : firesTick c s op = false) : (step c ty s op).tickCount = s.tickCount := by
  cases op with
  | initTIM3 => rfl
  | initTIM7 => rfl
  | timerSleepArm d => rfl
  | sleepTicksArm d => rfl
  | timerSleepStmt d i =>
    show (timerSleepStmt c s d i).tickCount = s.tickCount
    unfold timerSleepStmt
    split_ifs <;> rfl
  | waitPoll => rfl
  | ticks => rfl
  | event e =>
    cases e with
    | hwTIM3 sr => rfl
    | hwTIM7 sr => rfl
    | irqTIM3 =>
      simp only [step, Event.apply, handleTIM3]
      split_ifs <;> rfl
    | irqTIM7 =>
      simp only [firesTick, decide_eq_false_iff_not] at h
      simp only [step, Event.apply, handleTIM7, if_neg h]

/-- A run of `handleTIM7` with the flag set adds one to `tickCount`, wrapping in `ty`. -/
theorem step_tickCount_of_fires (c : DeviceConsts) (ty : IntTy) (s : State) (op : Op)
    (h : firesTick c s op = true) :
    (step c ty s op).tickCount = ty.wrap (s.tickCount + 1) := by
  cases op with
  | event e =>
    cases e with
    | irqTIM7 =>
      simp only [firesTick, decide_eq_true_eq] at h
      simp only [step, Event.apply, handleTIM7, if_pos h]
    | hwTIM3 sr => simp [firesTick] at h
    | hwTIM7 sr => simp [firesTick] at h
    | irqTIM3 => simp [firesTick] at h
  | initTIM3 => simp [firesTick] at h
  | initTIM7 => simp [firesTick] at h
  | timerSleepArm d => simp [firesTick] at h
  | sleepTicksArm d => simp [firesTick] at h
  | timerSleepStmt d i => simp [firesTick] at h
  | waitPoll => simp [firesTick] at h
  | ticks => simp [firesTick] at h

/-- As long as the count fits in the type, `tickCount` after a sequence of steps is its
value before plus the number of runs of `handleTIM7` with the flag set. -/
theorem run_tickCount (c : DeviceConsts) (ty : IntTy) (hb : 0 < ty.bits) (ops : List Op) :
    ∀ s : State, 0 ≤ s.tickCount →
      s.tickCount + (tickFirings c ty s ops : Int) ≤ ty.maxVal →
      (run c ty s ops).tickCount = s.tickCount + (tickFirings c ty s ops : Int) := by
  induction ops with
  | nil => intro s _ _; simp [run_nil, tickFirings]
  | cons op ops ih =>
    intro s h0 hmax
    rw [run_cons]
    simp only [tickFirings, Nat.cast_add] at hmax ⊢
    by_cases hf : firesTick c s op = true
    · have hstep := step_tickCount_of_fires c ty s op hf
      simp only [hf, if_true, Nat.cast_one] at hmax ⊢
      have hw : ty.wrap (s.tickCount + 1) = s.tickCount + 1 :=
        IntTy.wrap_eq_self ty hb _ (le_trans ty.minVal_nonpos (by omega)) (by omega)
      rw [hw] at hstep
      rw [ih (step c ty s op) (by omega) (by omega), hstep]
      ring
    · have hf2 : firesTick c s op = false := by simpa using hf
      have hstep := step_tickCount_of_not_fires c ty s op hf2
      simp only [hf2, Bool.false_eq_true, if_false, Nat.cast_zero] at hmax ⊢
      rw [ih (step c ty s op) (by omega) (by omega), hstep]
      ring

theorem tickBurst_firings (ty : IntTy) (n : Nat) :
    ∀ s : State, tickFirings stm32f407 ty s (tickBurst n) = n := by
  induction n with
  | zero => intro s; rfl
  | succ n ih =>
    intro s
    simp only [tickBurst, tickFirings, firesTick, step, Event.apply, ih]
    simp [stm32f407]
    omega

/-- C4: from a boot state (`tickCount = 0`), after any sequence of steps in which
`handleTIM7` ran `N` times with the TIM7 update flag set, `ticks()` returns `N * 1000`,
provided `N * 1000` fits in the type of `timeUnit`. -/
theorem ticks_after_firings (c : DeviceConsts) (ty : IntTy) (hb : 0 < ty.bits)
    (s0 : State) (ops : List Op) (hboot : s0.tickCount = 0)
    (hfit : (tickFirings c ty s0 ops : Int) * 1000 ≤ ty.maxVal) :
    ticks ty (run c ty s0 ops) = (tickFirings c ty s0 ops : Int) * 1000 := by
  have hN : (0 : Int) ≤ (tickFirings c ty s0 ops : Int) := Int.ofNat_nonneg _
  have hcount := run_tickCount c ty hb ops s0 (by omega) (by omega)
  rw [hboot, zero_add] at hcount
  unfold ticks
  rw [hcount]
  exact IntTy.wrap_eq_self ty hb _ (le_trans ty.minVal_nonpos (by omega)) hfit

/-- C4 at five tick interrupts on a 64-bit signed `timeUnit`: `ticks()` returns 5000. -/
theorem ticks_after_firings_witness :
    0 < int64.bits ∧ (bootState 0 resetTIM resetTIM).tickCount = 0 ∧
    tickFirings stm32f407 int64 (bootState 0 resetTIM resetTIM) (tickBurst 5) = 5 ∧
    ticks int64 (run stm32f407 int64 (bootState 0 resetTIM resetTIM) (tickBurst 5)) = 5000 := by
  have h5 := tickBurst_firings int64 5 (bootState 0 resetTIM resetTIM)
  refine ⟨by decide, rfl, h5, ?_⟩
  have h := ticks_after_firings stm32f407 int64 (by decide)
    (bootState 0 resetTIM resetTIM) (tickBurst 5) rfl
    (by rw [h5]; norm_num [IntTy.maxVal, int64])
  rw [h, h5]
  norm_num

/-- The value of `ticks()` after `n` tick interrupts from boot, whatever `n` is, as long as
`tickCount` itself has not overflowed. -/
theorem ticks_tickBurst (ty : IntTy) (hb : 0 < ty.bits) (n : Nat) (hn : (n : Int) ≤ ty.maxVal) :
    ticks ty (run stm32f407 ty (bootState 0 resetTIM resetTIM) (tickBurst n)) =
      ty.wrap ((n : Int) * 1000) := by
  have h := run_tickCount stm32f407 ty hb (tickBurst n) (bootState 0 resetTIM resetTIM)
  rw [tickBurst_firings] at h
  have h0 : (bootState 0 resetTIM resetTIM).tickCount = 0 := rfl
  rw [h0, zero_add] at h
  unfold ticks
  rw [h (le_refl 0) hn]

theorem tickBurst_add (m n : Nat) : tickBurst (m + n) = tickBurst m ++ tickBurst n := by
  induction m with
  | zero => simp [tickBurst]
  | succ m ih =>
    have : m + 1 + n = (m + n) + 1 := by omega
    rw [this]
    simp only [tickBurst, ih, List.cons_append]

/-- C6, refuted as stated: on a 64-bit `timeUnit`, signed or unsigned, the execution that
takes one more tick interrupt after 9223372036854775 (signed) or 18446744073709551
(unsigned) of them makes `ticks()` return a smaller value than before, because
`tickCount * 1000` wraps around although `tickCount` is far below its maximum. -/
theorem ticks_decreases_on_overflow :
    ticks int64 (run stm32f407 int64 (bootState 0 resetTIM resetTIM)
        (tickBurst 9223372036854775 ++ tickBurst 1)) <
      ticks int64 (run stm32f407 int64 (bootState 0 resetTIM resetTIM)
        (tickBurst 9223372036854775)) ∧
    ticks uint64 (run stm32f407 uint64 (bootState 0 resetTIM resetTIM)
        (tickBurst 18446744073709551 ++ tickBurst 1)) <
      ticks uint64 (run stm32f407 uint64 (bootState 0 resetTIM resetTIM)
        (tickBurst 18446744073709551)) := by
  constructor
  · rw [← tickBurst_add, ticks_tickBurst int64 (by decide) _ (by norm_num [IntTy.maxVal, int64]),
      ticks_tickBurst int64 (by decide) _ (by norm_num [IntTy.maxVal, int64])]
    norm_num [IntTy.wrap, int64]
  · rw [← tickBurst_add, ticks_tickBurst uint64 (by decide) _ (by norm_num [IntTy.maxVal, uint64]),
      ticks_tickBurst uint64 (by decide) _ (by norm_num [IntTy.maxVal, uint64])]
    norm_num [IntTy.wrap, uint64]

/-- C6, amended: every step leaves `tickCount` unchanged except a run of `handleTIM7` with
the update flag set, which adds exactly one while the counter is below the maximum of its
type; and from boot the values of `ticks()` at two successive points of an execution are
non-decreasing as long as the number of tick interrupts times 1000 fits in the type. -/
theorem tickCount_monotone (c : DeviceConsts) (ty : IntTy) (hb : 0 < ty.bits) :
    (∀ s : State, (handleTIM3 c s).tickCount = s.tickCount ∧
      (initTIM3 c s).tickCount = s.tickCount ∧ (initTIM7 c s).tickCount = s.tickCount ∧
      (∀ d : Nat, (timerSleepArm c s d).tickCount = s.tickCount) ∧
      (¬ (s.TIM7.SR &&& c.TIM_SR_UIF > 0) → (handleTIM7 c ty s).tickCount = s.tickCount)) ∧
    (∀ (s : State) (op : Op), firesTick c s op = false →
      (step c ty s op).tickCount = s.tickCount) ∧
    (∀ s : State, s.TIM7.SR &&& c.TIM_SR_UIF > 0 → ty.minVal ≤ s.tickCount →
      s.tickCount < ty.maxVal → (handleTIM7 c ty s).tickCount = s.tickCount + 1) ∧
    (∀ (s0 : State) (ops1 ops2 : List Op), s0.tickCount = 0 →
      (tickFirings c ty s0 (ops1 ++ ops2) : Int) * 1000 ≤ ty.maxVal →
      (run c ty s0 (ops1 ++ ops2)).tickCount =
        (run c ty s0 ops1).tickCount + (tickFirings c ty (run c ty s0 ops1) ops2 : Int) ∧
      ticks ty (run c ty s0 ops1) ≤ ticks ty (run c ty s0 (ops1 ++ ops2))) := by
  refine ⟨?_, ?_, ?_, ?_⟩
  · intro s
    refine ⟨?_, rfl, rfl, fun _ => rfl, ?_⟩
    · simp only [handleTIM3]; split_ifs <;> rfl
    · intro h; simp only [handleTIM7, if_neg h]
  · exact fun s op h => step_tickCount_of_not_fires c ty s op h
  · intro s hflag hlo hhi
    simp only [handleTIM7, if_pos hflag]
    exact IntTy.wrap_eq_self ty hb _ (by omega) (by omega)
  · intro s0 ops1 ops2 hboot hfit
    have hsplit := tickFirings_append c ty ops1 ops2 s0
    have h1 : (0 : Int) ≤ (tickFirings c ty s0 ops1 : Int) := Int.ofNat_nonneg _
    have h2 : (0 : Int) ≤ (tickFirings c ty (run c ty s0 ops1) ops2 : Int) := Int.ofNat_nonneg _
    rw [hsplit, Nat.cast_add] at hfit
    have hc1 := run_tickCount c ty hb ops1 s0 (by omega) (by omega)
    have hc12 := run_tickCount c ty hb (ops1 ++ ops2) s0 (by omega)
      (by rw [hsplit, Nat.cast_add]; omega)
    rw [hsplit, Nat.cast_add] at hc12
    rw [hboot, zero_add] at hc1 hc12
    constructor
    · rw [hc12, hc1]
    · unfold ticks
      rw [hc12, hc1,
        IntTy.wrap_eq_self ty hb _ (le_trans ty.minVal_nonpos (by omega)) (by omega),
        IntTy.wrap_eq_self ty hb _ (le_trans ty.minVal_nonpos (by omega)) (by omega)]
      omega

/-- C6, amended, on a 64-bit signed `timeUnit`: after two tick interrupts and then three
more, `ticks()` went from 2000 to 5000. -/
theorem tickCount_monotone_witness :
    0 < int64.bits ∧
    ticks int64 (run stm32f407 int64 (bootState 0 resetTIM resetTIM) (tickBurst 2)) ≤
      ticks int64 (run stm32f407 int64 (bootState 0 resetTIM resetTIM)
        (tickBurst 2 ++ tickBurst 3)) :=
  ⟨by decide,
    ((tickCount_monotone stm32f407 int64 (by decide)).2.2.2
      (bootState 0 resetTIM resetTIM) (tickBurst 2) (tickBurst 3) rfl
      (by rw [← tickBurst_add, tickBurst_firings]; norm_num [IntTy.maxVal, int64])).2⟩

/-! ## The wake flag -/

/-- The straight-line part of `timerSleep` is its five statements in order. -/
theorem timerSleepArm_eq_stmts (c : DeviceConsts) (ty : IntTy) (s : State) (d : Nat) :
    timerSleepArm c s d = run c ty s [.timerSleepStmt d 0, .timerSleepStmt d 1,
      .timerSleepStmt d 2, .timerSleepStmt d 3, .timerSleepStmt d 4] := rfl

/-- A step that is not a run of `handleTIM3` with the flag set cannot turn a false
`timerWakeup` into a true one. -/
theorem step_timerWakeup_of_not_fires (c : DeviceConsts) (ty : IntTy) (s : State) (op : Op)
    (hw : s.timerWakeup = false) (h : firesWake c s op = false) :
    (step c ty s op).timerWakeup = false := by
  cases op with
  | initTIM3 => exact hw
  | initTIM7 => exact hw
  | timerSleepArm d => rfl
  | sleepTicksArm d => rfl
  | timerSleepStmt d i =>
    show (timerSleepStmt c s d i).timerWakeup = false
    unfold timerSleepStmt
    split_ifs
    · rfl
    · exact hw
    · exact hw
    · exact hw
    · exact hw
    · exact hw
  | waitPoll => exact hw
  | ticks => exact hw
  | event e =>
    cases e with
    | hwTIM3 sr => exact hw
    | hwTIM7 sr => exact hw
    | irqTIM3 =>
      simp only [firesWake, decide_eq_false_iff_not] at h
      simp only [step, Event.apply, handleTIM3, if_neg h]
      exact hw
    | irqTIM7 =>
      simp only [step, Event.apply, handleTIM7]
      split_ifs
      · exact hw
      · exact hw

/-- While no run of `handleTIM3` finds the flag set, a false `timerWakeup` stays false. -/
theorem run_timerWakeup_false (c : DeviceConsts) (ty : IntTy) (ops : List Op) :
    ∀ s : State, s.timerWakeup = false → wakeFirings c ty s ops = 0 →
      (run c ty s ops).timerWakeup = false := by
  induction ops with
  | nil => intro s hw _; exact hw
  | cons op ops ih =>
    intro s hw h0
    rw [run_cons]
    simp only [wakeFirings] at h0
    have hf : firesWake c s op = false := by
      by_contra hne
      have : firesWake c s op = true := by simpa using hne
      simp [this] at h0
    exact ih _ (step_timerWakeup_of_not_fires c ty s op hw hf) (by omega)

/-- The blocking wait of `timerSleep` is a run of the step relation: when it returns, the
events it let through are a prefix of the given ones, the state is the one the step
relation reaches through them, and the flag is set. -/
theorem timerSleepWait_eq_run (c : DeviceConsts) (ty : IntTy) (es : List Event) :
    ∀ (s s1 : State) (rest : List Event), timerSleepWait c ty s es = some (s1, rest) →
      ∃ used : List Event, es = used ++ rest ∧ s1 = run c ty s (used.map Op.event) ∧
        s1.timerWakeup = true := by
  induction es with
  | nil =>
    intro s s1 rest h
    simp only [timerSleepWait] at h
    split_ifs at h with hw
    simp only [Option.some.injEq, Prod.mk.injEq] at h
    exact ⟨[], by simp [h.2.symm], by simp [run_nil, h.1], by rw [← h.1]; exact hw⟩
  | cons e es ih =>
    intro s s1 rest h
    simp only [timerSleepWait] at h
    split_ifs at h with hw
    · simp only [Option.some.injEq, Prod.mk.injEq] at h
      exact ⟨[], by simp [h.2.symm], by simp [run_nil, h.1], by rw [← h.1]; exact hw⟩
    · obtain ⟨used, h1, h2, h3⟩ := ih _ s1 rest h
      exact ⟨e :: used, by simp [h1], by simp [run_cons, step, h2], h3⟩

/-- C7: after the arming sequence of `timerSleep` (and already after its first statement,
when interrupts arrive between the arming writes), `timerWakeup` is false at every point of
an execution that precedes the first run of `handleTIM3` with the update flag set; a step
that turns `timerWakeup` from false to true is a run of `handleTIM3` with the flag set;
such a run sets `timerWakeup` and clears `TIM_CR1_CEN` in `TIM3.CR1` and `TIM_SR_UIF` in
`TIM3.SR`; `handleTIM3` with the flag clear changes nothing, and `handleTIM7` leaves
`timerWakeup` unchanged. -/
theorem timerWakeup_protocol (c : DeviceConsts) (ty : IntTy) :
    (∀ (s : State) (d : Nat), (timerSleepArm c s d).timerWakeup = false) ∧
    (∀ (s : State) (d : Nat) (ops1 ops2 : List Op),
      wakeFirings c ty (timerSleepArm c s d) (ops1 ++ ops2) = 0 →
      (run c ty (timerSleepArm c s d) ops1).timerWakeup = false) ∧
    (∀ (s : State) (d : Nat) (ops1 ops2 : List Op),
      wakeFirings c ty (timerSleepStmt c s d 0) (ops1 ++ ops2) = 0 →
      (run c ty (timerSleepStmt c s d 0) ops1).timerWakeup = false) ∧
    (∀ (s : State) (op : Op), s.timerWakeup = false →
      (step c ty s op).timerWakeup = true → firesWake c s op = true) ∧
    (∀ s : State, s.TIM3.SR &&& c.TIM_SR_UIF > 0 →
      (handleTIM3 c s).timerWakeup = true ∧
      (handleTIM3 c s).TIM3.CR1 &&& c.TIM_CR1_CEN = 0 ∧
      (handleTIM3 c s).TIM3.SR &&& c.TIM_SR_UIF = 0) ∧
    (∀ s : State, ¬ (s.TIM3.SR &&& c.TIM_SR_UIF > 0) → handleTIM3 c s = s) ∧
    (∀ s : State, (handleTIM7 c ty s).timerWakeup = s.timerWakeup) := by
  refine ⟨fun _ _ => rfl, ?_, ?_, ?_, ?_, ?_, ?_⟩
  · intro s d ops1 ops2 h0
    rw [wakeFirings_append] at h0
    exact run_timerWakeup_false c ty ops1 _ rfl (by omega)
  · intro s d ops1 ops2 h0
    rw [wakeFirings_append] at h0
    exact run_timerWakeup_false c ty ops1 _ rfl (by omega)
  · intro s op hw ht
    by_contra hne
    have hf : firesWake c s op = false := by simpa using hne
    rw [step_timerWakeup_of_not_fires c ty s op hw hf] at ht
    exact Bool.noConfusion ht
  · intro s hflag
    simp only [handleTIM3, if_pos hflag]
    exact ⟨trivial, andNot_and_self _ _, andNot_and_self _ _⟩
  · intro s hflag
    simp only [handleTIM3, if_neg hflag]
  · intro s
    simp only [handleTIM7]
    split_ifs <;> rfl

/-! ## Interrupt priorities and the tick period -/

/-- C8, refuted as stated: after `initTIM3` and `initTIM7` the priority value registered
for `IRQ_TIM7` is not higher than the one registered for `IRQ_TIM3`. -/
theorem tick_priority_not_numerically_higher :
    ¬ ((initTIM7 stm32f407 (initTIM3 stm32f407 (bootState 0 resetTIM resetTIM))).priority
          stm32f407.IRQ_TIM7 >
        (initTIM7 stm32f407 (initTIM3 stm32f407 (bootState 0 resetTIM resetTIM))).priority
          stm32f407.IRQ_TIM3) := by
  decide

/-- C8, amended: after `initTIM3` and `initTIM7` the priority value registered for
`IRQ_TIM7` is `0xc1` and the one registered for `IRQ_TIM3` is `0xc3`, so the value of the
tick interrupt is the numerically lower of the two. -/
theorem tick_priority_numerically_lower (c : DeviceConsts) (s : State)
    (hirq : c.IRQ_TIM3 ≠ c.IRQ_TIM7) :
    (initTIM7 c (initTIM3 c s)).priority c.IRQ_TIM7 = 0xc1 ∧
    (initTIM7 c (initTIM3 c s)).priority c.IRQ_TIM3 = 0xc3 ∧
    (initTIM7 c (initTIM3 c s)).priority c.IRQ_TIM7 <
      (initTIM7 c (initTIM3 c s)).priority c.IRQ_TIM3 := by
  have h7 : (initTIM7 c (initTIM3 c s)).priority c.IRQ_TIM7 = 0xc1 := by
    simp [initTIM7, initTIM3, SetPriority, EnableIRQ]
  have h3 : (initTIM7 c (initTIM3 c s)).priority c.IRQ_TIM3 = 0xc3 := by
    simp [initTIM7, initTIM3, SetPriority, EnableIRQ, hirq]
  refine ⟨h7, h3, ?_⟩
  rw [h7, h3]
  norm_num

/-- C8, amended, on the STM32F407, where `IRQ_TIM3 = 29` and `IRQ_TIM7 = 55`. -/
theorem tick_priority_numerically_lower_witness :
    stm32f407.IRQ_TIM3 ≠ stm32f407.IRQ_TIM7 ∧
    (initTIM7 stm32f407 (initTIM3 stm32f407 (bootState 0 resetTIM resetTIM))).priority
        stm32f407.IRQ_TIM7 <
      (initTIM7 stm32f407 (initTIM3 stm32f407 (bootState 0 resetTIM resetTIM))).priority
        stm32f407.IRQ_TIM3 :=
  ⟨by decide,
    (tick_priority_numerically_lower stm32f407 (bootState 0 resetTIM resetTIM)
      (by decide)).2.2⟩

/-- C10: `initTIM7` writes `PSC = 8399` and `ARR = 9`; with an input clock of 84 MHz the
timer then overflows `84000000 / ((PSC + 1) * (ARR + 1)) = 1000` times per second, with no
remainder, that is once per 1000 microseconds, and 1000 is both `tickMicros` and the factor
by which `ticks()` multiplies `tickCount`. -/
theorem initTIM7_tick_period (c : DeviceConsts) (ty : IntTy) (s : State) :
    (initTIM7 c s).TIM7.PSC = 8399 ∧ (initTIM7 c s).TIM7.ARR = 9 ∧
    84000000 / (((initTIM7 c s).TIM7.PSC + 1) * ((initTIM7 c s).TIM7.ARR + 1)) = 1000 ∧
    84000000 % (((initTIM7 c s).TIM7.PSC + 1) * ((initTIM7 c s).TIM7.ARR + 1)) = 0 ∧
    1000000 * (((initTIM7 c s).TIM7.PSC + 1) * ((initTIM7 c s).TIM7.ARR + 1)) =
      84000000 * tickMicros ∧
    tickMicros = 1000 ∧
    ticks ty s = ty.wrap (s.tickCount * (tickMicros : Int)) := by
  have hp : (initTIM7 c s).TIM7.PSC = 8399 := by
    simp [initTIM7, SetPriority, EnableIRQ]
  have ha : (initTIM7 c s).TIM7.ARR = 9 := by
    simp [initTIM7, SetPriority, EnableIRQ]
  rw [hp, ha]
  refine ⟨rfl, rfl, by norm_num, by norm_num, by norm_num [tickMicros], rfl, ?_⟩
  simp [ticks, tickMicros]

/-! ## The wait for the external oscillator -/

theorem spin_some (rd : Nat → Nat) (busy : Nat → Bool) (fuel : Nat) :
    ∀ m m1 : ClkRun, spin rd busy fuel m = some m1 →
      m1.writes = m.writes ∧ m1.hsePolls = m.hsePolls ∧ m.reads < m1.reads := by
  induction fuel with
  | zero => intro m m1 h; simp [spin] at h
  | succ fuel ih =>
    intro m m1 h
    simp only [spin] at h
    split_ifs at h with hb
    · obtain ⟨h1, h2, h3⟩ := ih _ _ h
      refine ⟨h1, h2, ?_⟩
      simp only [ClkRun.tick] at h3
      omega
    · simp only [Option.some.injEq] at h
      subst h
      simp [ClkRun.tick]

/-- Enough fuel gives the result: a polling loop whose condition fails at the `n`-th read
ends when it is followed for more than `n` turns. -/
theorem spin_of_ready (rd : Nat → Nat) (busy : Nat → Bool) (fuel : Nat) :
    ∀ (m : ClkRun) (n : Nat), n < fuel → busy (rd (m.reads + n)) = false →
      ∃ m1, spin rd busy fuel m = some m1 := by
  induction fuel with
  | zero => intro m n hn; omega
  | succ fuel ih =>
    intro m n hn hready
    simp only [spin]
    split_ifs with hb
    · cases n with
      | zero => simp [hb] at hready
      | succ n =>
        apply ih m.tick n (by omega)
        simp only [ClkRun.tick]
        rw [show m.reads + 1 + n = m.reads + (n + 1) by omega]
        exact hready
    · exact ⟨_, rfl⟩

/-- The wait for the external oscillator always ends within `HSE_STARTUP_TIMEOUT` turns:
started with the counter at `k`, it stops with the counter at some `p` with
`k < p ≤ HSE_STARTUP_TIMEOUT`, after `p - k` reads of `RCC.CR`, none of which but possibly
the last saw `RCC_CR_HSERDY`; it stops before the bound only on a read that sees the flag;
and it writes nothing. -/
theorem hseLoop_spec (c : DeviceConsts) (rd : Nat → Nat) (fuel : Nat) :
    ∀ (k : Nat) (m : ClkRun), k < HSE_STARTUP_TIMEOUT → HSE_STARTUP_TIMEOUT ≤ fuel + k →
      ∃ (p : Nat) (m1 : ClkRun), hseLoop c rd fuel k m = some (p, m1) ∧
        k < p ∧ p ≤ HSE_STARTUP_TIMEOUT ∧
        m1.reads = m.reads + (p - k) ∧ m1.hsePolls = m.hsePolls + (p - k) ∧
        m1.writes = m.writes ∧
        (∀ i, i + 1 < p - k → rd (m.reads + i) &&& c.RCC_CR_HSERDY = 0) ∧
        (p < HSE_STARTUP_TIMEOUT → rd (m.reads + (p - k - 1)) &&& c.RCC_CR_HSERDY ≠ 0) := by
  induction fuel with
  | zero => intro k m hk hf; omega
  | succ fuel ih =>
    intro k m hk hf
    have hT : HSE_STARTUP_TIMEOUT = 1280 := rfl
    have hmod : (k + 1) % 2 ^ 32 = k + 1 := Nat.mod_eq_of_lt (by rw [hT] at hk; omega)
    simp only [hseLoop, hmod]
    split_ifs with hexit
    · refine ⟨k + 1, _, rfl, by omega, by omega, ?_, ?_, rfl, ?_, ?_⟩
      · simp [ClkRun.tick]
      · simp
      · intro i hi; omega
      · intro hlt
        rcases hexit with h | h
        · simpa using h
        · omega
    · have hflag : rd m.reads &&& c.RCC_CR_HSERDY = 0 := by
        by_contra hne
        exact hexit (Or.inl hne)
      have hk1 : k + 1 < HSE_STARTUP_TIMEOUT := by
        rcases Nat.lt_or_ge (k + 1) HSE_STARTUP_TIMEOUT with h | h
        · exact h
        · exact absurd (by omega : k + 1 = HSE_STARTUP_TIMEOUT) (fun h => hexit (Or.inr h))
      obtain ⟨p, m1, h1, h2, h3, h4, h5, h6, h7, h8⟩ :=
        ih (k + 1) { m.tick with hsePolls := m.hsePolls + 1 } hk1 (by omega)
      simp only [ClkRun.tick] at h4 h5 h6 h7 h8
      refine ⟨p, m1, h1, by omega, h3, by omega, by omega, h6, ?_, ?_⟩
      · intro i hi
        cases i with
        | zero => exact hflag
        | succ i =>
          have := h7 i (by omega)
          rw [show m.reads + 1 + i = m.reads + (i + 1) by omega] at this
          exact this
      · intro hlt
        have := h8 hlt
        rw [show m.reads + 1 + (p - (k + 1) - 1) = m.reads + (p - k - 1) by omega] at this
        exact this

/-- When no read of the wait sees `RCC_CR_HSERDY`, the wait stops with the counter at
`HSE_STARTUP_TIMEOUT`. -/
theorem hseLoop_timeout (c : DeviceConsts) (rd : Nat → Nat) (fuel : Nat) (m : ClkRun)
    (hf : HSE_STARTUP_TIMEOUT ≤ fuel)
    (hclear : ∀ i, i < HSE_STARTUP_TIMEOUT → rd (m.reads + i) &&& c.RCC_CR_HSERDY = 0) :
    ∃ m1, hseLoop c rd fuel 0 m = some (HSE_STARTUP_TIMEOUT, m1) ∧
      m1.reads = m.reads + HSE_STARTUP_TIMEOUT ∧
      m1.hsePolls = m.hsePolls + HSE_STARTUP_TIMEOUT ∧ m1.writes = m.writes := by
  obtain ⟨p, m1, h1, h2, h3, h4, h5, h6, _, h8⟩ :=
    hseLoop_spec c rd fuel 0 m (by decide) (by omega)
  have hp : p = HSE_STARTUP_TIMEOUT := by
    by_contra hne
    have hlt : p < HSE_STARTUP_TIMEOUT := lt_of_le_of_ne h3 hne
    exact h8 hlt (hclear _ (by omega))
  subst hp
  exact ⟨m1, h1, by simpa using h4, by simpa using h5, h6⟩

/-- The reset part of `initCLK` performs exactly six writes, three of them to registers
other than `RCC.CR`, and no read of the wait for the external oscillator. -/
theorem initCLK_reset_some (c : DeviceConsts) (rd : Nat → Nat) (fuel : Nat) (m0 : ClkRun)
    (h : initCLK_reset c rd fuel = some m0) :
    m0.hsePolls = 0 ∧ 4 ≤ m0.reads ∧
    m0.writes = [(.RCC_CR, rd 0 ||| c.RCC_CR_HSION), (.RCC_CFGR, 0),
      (.RCC_CR, rd (m0.reads - 2) &&& 0xFEF6FFFF), (.RCC_PLLCFGR, 0x24003010),
      (.RCC_CR, rd (m0.reads - 1) &&& 0xFFFBFFFF), (.RCC_CIR, 0)] := by
  unfold initCLK_reset at h
  simp only at h
  split at h
  · exact Option.noConfusion h
  · rename_i m1 hspin
    obtain ⟨hw, hp, hr⟩ := spin_some _ _ _ _ _ hspin
    simp only [Option.some.injEq] at h
    subst h
    simp only [ClkRun.modify, ClkRun.write, ClkRun.tick] at hw hp hr ⊢
    refine ⟨hp, by omega, ?_⟩
    simp [hw]

/-- Enough fuel gives the result: when the internal oscillator reports ready at the `n`-th
poll and the loop is followed for more than `n` turns, the reset part completes. -/
theorem initCLK_reset_of_ready (c : DeviceConsts) (rd : Nat → Nat) (fuel n : Nat)
    (hn : n < fuel) (hready : rd (1 + n) &&& c.RCC_CR_HSIRDY ≠ 0) :
    ∃ m0, initCLK_reset c rd fuel = some m0 := by
  unfold initCLK_reset
  simp only
  obtain ⟨m1, h1⟩ := spin_of_ready rd (fun v => v &&& c.RCC_CR_HSIRDY == 0) fuel
    ((⟨0, [], 0⟩ : ClkRun).modify rd .RCC_CR (fun v => v ||| c.RCC_CR_HSION)) n hn
    (by simpa [ClkRun.modify, ClkRun.write, ClkRun.tick] using hready)
  rw [h1]
  exact ⟨_, rfl⟩

/-- The success branch never ends in the halt of the failure branch, and whatever its
outcome it has written the PLL configuration. -/
theorem initCLK_configure_not_halted (c : DeviceConsts) (rd : Nat → Nat) (fuel : Nat)
    (m : ClkRun) :
    (initCLK_configure c rd fuel m).isHalted = false ∧
    (Reg.RCC_PLLCFGR, pllcfgrValue c) ∈ (initCLK_configure c rd fuel m).progress.writes := by
  unfold initCLK_configure
  simp only
  split
  · simp [Outcome.isHalted, Outcome.progress, ClkRun.modify, ClkRun.write, ClkRun.tick]
  · rename_i m1 h1
    obtain ⟨hw1, _, _⟩ := spin_some _ _ _ _ _ h1
    split
    · simp [Outcome.isHalted, Outcome.progress, ClkRun.modify, ClkRun.write, ClkRun.tick, hw1]
    · rename_i m2 h2
      obtain ⟨hw2, _, _⟩ := spin_some _ _ _ _ _ h2
      simp [Outcome.isHalted, Outcome.progress, ClkRun.modify, ClkRun.write, ClkRun.tick,
        hw1, hw2]

/-- The success branch does not touch the count of polls of the external oscillator. -/
theorem initCLK_configure_hsePolls (c : DeviceConsts) (rd : Nat → Nat) (fuel : Nat)
    (m : ClkRun) : (initCLK_configure c rd fuel m).progress.hsePolls = m.hsePolls := by
  unfold initCLK_configure
  simp only
  split
  · simp [Outcome.progress, ClkRun.modify, ClkRun.write, ClkRun.tick]
  · rename_i m1 h1
    obtain ⟨_, hp1, _⟩ := spin_some _ _ _ _ _ h1
    split
    · simp only [Outcome.progress, ClkRun.modify, ClkRun.write, ClkRun.tick]
      simpa [ClkRun.modify, ClkRun.write, ClkRun.tick] using hp1
    · rename_i m2 h2
      obtain ⟨_, hp2, _⟩ := spin_some _ _ _ _ _ h2
      simp only [Outcome.progress, ClkRun.modify, ClkRun.write, ClkRun.tick]
      simp only [ClkRun.modify, ClkRun.write, ClkRun.tick] at hp1 hp2
      rw [hp2, hp1]

/-- The shape of `initCLK` once the reset part has completed and the wait for the external
oscillator has stopped after `p` polls: the read of `RCC.CR` that follows decides between
the success branch and the halt. -/
theorem initCLK_after_wait (c : DeviceConsts) (rd : Nat → Nat) (fuel : Nat) (m0 m1 : ClkRun)
    (p : Nat) (hreset : initCLK_reset c rd fuel = some m0)
    (hloop : hseLoop c rd fuel 0 (m0.write .RCC_CR c.RCC_CR_HSEON) = some (p, m1)) :
    initCLK c rd fuel =
      if rd m1.reads &&& c.RCC_CR_HSERDY ≠ 0 then initCLK_configure c rd fuel m1.tick
      else .halted m1.tick := by
  unfold initCLK
  rw [hreset]
  simp only [initCLK_hse]
  rw [hloop]

/-- C5, refuted as stated: on the STM32F407, when the third poll of the wait sees
`RCC_CR_HSERDY` set and the read of `RCC.CR` after the loop sees it clear, the flag has
been observed set, the loop has ended after 3 polls, and `initCLK` nevertheless halts, with
only the writes of the reset part and of `RCC_CR_HSEON` behind it. -/
theorem initCLK_halts_after_flag_seen :
    flickerRd 6 &&& stm32f407.RCC_CR_HSERDY ≠ 0 ∧
    initCLK stm32f407 flickerRd 1280 = .halted ⟨8,
      [(.RCC_CR, 0x83), (.RCC_CFGR, 0), (.RCC_CR, 0x83), (.RCC_PLLCFGR, 0x24003010),
       (.RCC_CR, 0x83), (.RCC_CIR, 0), (.RCC_CR, 0x10000)], 3⟩ ∧
    (initCLK stm32f407 flickerRd 1280).isHalted = true ∧
    (initCLK stm32f407 flickerRd 1280).progress.hsePolls = 3 := by
  have hrun : initCLK stm32f407 flickerRd 1280 = .halted ⟨8,
      [(.RCC_CR, 0x83), (.RCC_CFGR, 0), (.RCC_CR, 0x83), (.RCC_PLLCFGR, 0x24003010),
       (.RCC_CR, 0x83), (.RCC_CIR, 0), (.RCC_CR, 0x10000)], 3⟩ := by decide
  refine ⟨by decide, hrun, ?_, ?_⟩
  · rw [hrun]; rfl
  · rw [hrun]; rfl

/-- C5, amended: once `initCLK` has reached the wait for the external oscillator (the reset
part has completed with progress `m0`, so the reads of `RCC.CR` that look at
`RCC_CR_HSERDY` are the reads `m0.reads`, `m0.reads + 1`, ...):

* if none of the `HSE_STARTUP_TIMEOUT` polls nor the test after the loop sees the flag, the
  loop ends after exactly `HSE_STARTUP_TIMEOUT = 0x500` polls and `initCLK` halts, having
  written nothing since `RCC_CR_HSEON`; its only writes outside `RCC.CR` are the three of
  the reset part (`CFGR = 0`, `PLLCFGR = 0x24003010`, `CIR = 0`), so neither the dividers,
  the PLL configuration, `FLASH.ACR`, the clock switch nor `RCC.AHB1ENR` has been written;
* in every case the loop ends after `p` polls with `1 ≤ p ≤ 0x500`, only the last of which
  can have seen the flag, and the branch is chosen by the read of `RCC.CR` after the loop
  alone: `initCLK` halts exactly when that read finds the flag clear, whatever the polls
  saw, and when that read sees the flag set the success branch runs, which does not halt
  and writes the PLL configuration. -/
theorem initCLK_hse_timeout_or_configure (c : DeviceConsts) (rd : Nat → Nat) (fuel : Nat)
    (m0 : ClkRun) (hreset : initCLK_reset c rd fuel = some m0)
    (hfuel : HSE_STARTUP_TIMEOUT ≤ fuel) :
    ((∀ i, i ≤ HSE_STARTUP_TIMEOUT → rd (m0.reads + i) &&& c.RCC_CR_HSERDY = 0) →
      ∃ m, initCLK c rd fuel = .halted m ∧ m.hsePolls = HSE_STARTUP_TIMEOUT ∧
        m.reads = m0.reads + HSE_STARTUP_TIMEOUT + 1 ∧
        m.writes = m0.writes ++ [(.RCC_CR, c.RCC_CR_HSEON)] ∧
        m.writes.filter (fun w => decide (w.1 ≠ Reg.RCC_CR)) =
          [(.RCC_CFGR, 0), (.RCC_PLLCFGR, 0x24003010), (.RCC_CIR, 0)]) ∧
    (∃ p, 1 ≤ p ∧ p ≤ HSE_STARTUP_TIMEOUT ∧ (initCLK c rd fuel).progress.hsePolls = p ∧
      (∀ i, i + 1 < p → rd (m0.reads + i) &&& c.RCC_CR_HSERDY = 0) ∧
      (p < HSE_STARTUP_TIMEOUT → rd (m0.reads + (p - 1)) &&& c.RCC_CR_HSERDY ≠ 0) ∧
      ((initCLK c rd fuel).isHalted = true ↔ rd (m0.reads + p) &&& c.RCC_CR_HSERDY = 0) ∧
      (rd (m0.reads + p) &&& c.RCC_CR_HSERDY ≠ 0 →
        (initCLK c rd fuel).isHalted = false ∧
        (Reg.RCC_PLLCFGR, pllcfgrValue c) ∈ (initCLK c rd fuel).progress.writes)) := by
  obtain ⟨hp0, _, hw0⟩ := initCLK_reset_some c rd fuel m0 hreset
  -- the general shape of the wait
  obtain ⟨p, m1, hloop, hp1, hp2, hr1, hpolls1, hw1, hclr, hset⟩ :=
    hseLoop_spec c rd fuel 0 (m0.write .RCC_CR c.RCC_CR_HSEON) (by decide) (by omega)
  simp only [ClkRun.write, Nat.sub_zero] at hr1 hpolls1 hw1 hclr hset
  have hshape := initCLK_after_wait c rd fuel m0 m1 p hreset hloop
  have hbranch : ∀ (hflag : rd (m0.reads + p) &&& c.RCC_CR_HSERDY ≠ 0),
      initCLK c rd fuel = initCLK_configure c rd fuel m1.tick := by
    intro hflag
    rw [hshape, hr1, if_pos hflag]
  have hpart2 : (initCLK c rd fuel).progress.hsePolls = p ∧
      ((initCLK c rd fuel).isHalted = true ↔ rd (m0.reads + p) &&& c.RCC_CR_HSERDY = 0) := by
    by_cases hflag : rd (m0.reads + p) &&& c.RCC_CR_HSERDY = 0
    · have : initCLK c rd fuel = .halted m1.tick := by
        rw [hshape, hr1, if_neg (by simpa using hflag)]
      rw [this]
      simp only [Outcome.progress, Outcome.isHalted, ClkRun.tick, hpolls1, hp0, zero_add,
        true_and]
      exact ⟨fun _ => hflag, fun _ => trivial⟩
    · rw [hbranch hflag, initCLK_configure_hsePolls]
      refine ⟨by simp [ClkRun.tick, hpolls1, hp0], ?_⟩
      rw [(initCLK_configure_not_halted c rd fuel m1.tick).1]
      exact ⟨fun h => Bool.noConfusion h, fun h => absurd h hflag⟩
  refine ⟨?_, ⟨p, by omega, hp2, hpart2.1, hclr, hset, hpart2.2, ?_⟩⟩
  · intro hnever
    obtain ⟨m2, hloop2, hr2, hpolls2, hw2⟩ :=
      hseLoop_timeout c rd fuel (m0.write .RCC_CR c.RCC_CR_HSEON) hfuel
        (fun i hi => hnever i (by omega))
    simp only [ClkRun.write] at hr2 hpolls2 hw2
    have hshape2 := initCLK_after_wait c rd fuel m0 m2 _ hreset hloop2
    have hflag : ¬ (rd m2.reads &&& c.RCC_CR_HSERDY ≠ 0) := by
      rw [hr2]
      simpa using hnever HSE_STARTUP_TIMEOUT (le_refl _)
    rw [if_neg hflag] at hshape2
    refine ⟨m2.tick, hshape2, ?_, ?_, ?_, ?_⟩
    · simp [ClkRun.tick, hpolls2, hp0]
    · simp [ClkRun.tick, hr2]
    · simp [ClkRun.tick, hw2]
    · simp only [ClkRun.tick, hw2, hw0]
      simp [List.filter]
  · intro hflag
    rw [hbranch hflag]
    exact initCLK_configure_not_halted c rd fuel m1.tick

/-- C5, amended, on the STM32F407, twice: with an external oscillator that never becomes
ready, `initCLK` halts after 0x500 polls with the seven writes of the reset part and of
`RCC_CR_HSEON`; with hardware that behaves, the first poll (read 4) and the read after the
loop (read 5) see the flag, and `initCLK` does not halt and writes the PLL
configuration. -/
theorem initCLK_hse_timeout_or_configure_witness :
    (initCLK_reset stm32f407 deadHseRd 1280 =
      some ⟨4, [(.RCC_CR, 0x83), (.RCC_CFGR, 0), (.RCC_CR, 0x83), (.RCC_PLLCFGR, 0x24003010),
        (.RCC_CR, 0x83), (.RCC_CIR, 0)], 0⟩ ∧
    HSE_STARTUP_TIMEOUT ≤ 1280 ∧
    ∃ m, initCLK stm32f407 deadHseRd 1280 = .halted m ∧ m.hsePolls = HSE_STARTUP_TIMEOUT ∧
      m.reads = 4 + HSE_STARTUP_TIMEOUT + 1 ∧
      m.writes = [(.RCC_CR, 0x83), (.RCC_CFGR, 0), (.RCC_CR, 0x83),
        (.RCC_PLLCFGR, 0x24003010), (.RCC_CR, 0x83), (.RCC_CIR, 0)] ++
        [(.RCC_CR, stm32f407.RCC_CR_HSEON)] ∧
      m.writes.filter (fun w => decide (w.1 ≠ Reg.RCC_CR)) =
        [(.RCC_CFGR, 0), (.RCC_PLLCFGR, 0x24003010), (.RCC_CIR, 0)]) ∧
    (initCLK_reset stm32f407 readyRd 1280 =
      some ⟨4, [(.RCC_CR, 0x83), (.RCC_CFGR, 0), (.RCC_CR, 0x83), (.RCC_PLLCFGR, 0x24003010),
        (.RCC_CR, 0x83), (.RCC_CIR, 0)], 0⟩ ∧
    readyRd (4 + 1) &&& stm32f407.RCC_CR_HSERDY ≠ 0 ∧
    (initCLK stm32f407 readyRd 1280).progress.hsePolls = 1 ∧
    (initCLK stm32f407 readyRd 1280).isHalted = false ∧
    (Reg.RCC_PLLCFGR, pllcfgrValue stm32f407) ∈
      (initCLK stm32f407 readyRd 1280).progress.writes) := by
  constructor
  · exact ⟨by decide, by decide,
      (initCLK_hse_timeout_or_configure stm32f407 deadHseRd 1280
        ⟨4, [(.RCC_CR, 0x83), (.RCC_CFGR, 0), (.RCC_CR, 0x83), (.RCC_PLLCFGR, 0x24003010),
          (.RCC_CR, 0x83), (.RCC_CIR, 0)], 0⟩ (by decide) (by decide)).1
        (fun _ _ => by simp only [deadHseRd]; decide)⟩
  · obtain ⟨p, hp1, _, hpolls, _, hlast, _, hcfg⟩ :=
      (initCLK_hse_timeout_or_configure stm32f407 readyRd 1280
        ⟨4, [(.RCC_CR, 0x83), (.RCC_CFGR, 0), (.RCC_CR, 0x83), (.RCC_PLLCFGR, 0x24003010),
          (.RCC_CR, 0x83), (.RCC_CIR, 0)], 0⟩ (by decide) (by decide)).2
    have hone : (initCLK stm32f407 readyRd 1280).progress.hsePolls = 1 := by decide
    have hp : p = 1 := by rw [← hpolls, hone]
    subst hp
    exact ⟨by decide, by decide, hone, hcfg (by decide)⟩

/-! ## The clock plan -/

/-- The wait for the external oscillator writes nothing. -/
theorem hseLoop_writes (c : DeviceConsts) (rd : Nat → Nat) (fuel : Nat) :
    ∀ (k : Nat) (ma : ClkRun) (q : Nat) (mb : ClkRun),
      hseLoop c rd fuel k ma = some (q, mb) → mb.writes = ma.writes := by
  induction fuel with
  | zero => intro k ma q mb hq; simp [hseLoop] at hq
  | succ fuel ih =>
    intro k ma q mb hq
    simp only [hseLoop] at hq
    split_ifs at hq with hexit
    · simp only [Option.some.injEq, Prod.mk.injEq] at hq
      rw [← hq.2]; rfl
    · have := ih _ _ _ _ hq
      simpa [ClkRun.tick] using this

/-- The writes of the success branch when it returns: after what was written before, the
power enable, the voltage scaling, the three divider codes, the PLL configuration, the
PLL enable, the flash settings, the two statements of the clock switch and the CCM RAM
clock enable, in this order. -/
theorem initCLK_configure_returned (c : DeviceConsts) (rd : Nat → Nat) (fuel : Nat)
    (m m1 : ClkRun) (h : initCLK_configure c rd fuel m = .returned m1) :
    ∃ a b v0 v1 v2 d e f g : Nat, m1.writes = m.writes ++
      [(.RCC_APB1ENR, a), (.PWR_CR, b),
       (.RCC_CFGR, v0 ||| (HPRE_code <<< c.RCC_CFGR_HPRE_Pos)),
       (.RCC_CFGR, v1 ||| (PPRE2_code <<< c.RCC_CFGR_PPRE2_Pos)),
       (.RCC_CFGR, v2 ||| (PPRE1_code <<< c.RCC_CFGR_PPRE1_Pos)),
       (.RCC_PLLCFGR, pllcfgrValue c), (.RCC_CR, d),
       (.FLASH_ACR, c.FLASH_ACR_ICEN ||| c.FLASH_ACR_DCEN ||| (5 <<< c.FLASH_ACR_LATENCY_Pos)),
       (.RCC_CFGR, e), (.RCC_CFGR, f), (.RCC_AHB1ENR, g)] := by
  unfold initCLK_configure at h
  simp only at h
  split at h
  · exact Outcome.noConfusion h
  · rename_i m2 h2
    obtain ⟨hw2, _, _⟩ := spin_some _ _ _ _ _ h2
    split at h
    · exact Outcome.noConfusion h
    · rename_i m3 h3
      obtain ⟨hw3, _, _⟩ := spin_some _ _ _ _ _ h3
      simp only [Outcome.returned.injEq] at h
      subst h
      simp only [ClkRun.modify, ClkRun.write, ClkRun.tick] at hw2 hw3 ⊢
      rw [hw3, hw2]
      simp only [List.append_assoc, List.singleton_append, List.cons_append, List.nil_append]
      exact ⟨_, _, _, _, _, _, _, _, _, rfl⟩

/-- The writes of `initCLK` when it returns: the seven of the reset part and of
`RCC_CR_HSEON`, then the eleven of the success branch. -/
theorem initCLK_returned_writes (c : DeviceConsts) (rd : Nat → Nat) (fuel : Nat)
    (m : ClkRun) (h : initCLK c rd fuel = .returned m) :
    ∃ r0 r1 r2 a b v0 v1 v2 d e f g : Nat, m.writes =
      [(.RCC_CR, r0), (.RCC_CFGR, 0), (.RCC_CR, r1), (.RCC_PLLCFGR, 0x24003010),
       (.RCC_CR, r2), (.RCC_CIR, 0), (.RCC_CR, c.RCC_CR_HSEON)] ++
      [(.RCC_APB1ENR, a), (.PWR_CR, b),
       (.RCC_CFGR, v0 ||| (HPRE_code <<< c.RCC_CFGR_HPRE_Pos)),
       (.RCC_CFGR, v1 ||| (PPRE2_code <<< c.RCC_CFGR_PPRE2_Pos)),
       (.RCC_CFGR, v2 ||| (PPRE1_code <<< c.RCC_CFGR_PPRE1_Pos)),
       (.RCC_PLLCFGR, pllcfgrValue c), (.RCC_CR, d),
       (.FLASH_ACR, c.FLASH_ACR_ICEN ||| c.FLASH_ACR_DCEN ||| (5 <<< c.FLASH_ACR_LATENCY_Pos)),
       (.RCC_CFGR, e), (.RCC_CFGR, f), (.RCC_AHB1ENR, g)] := by
  unfold initCLK at h
  split at h
  · exact Outcome.noConfusion h
  · rename_i m0 hreset
    obtain ⟨_, _, hw0⟩ := initCLK_reset_some c rd fuel m0 hreset
    simp only [initCLK_hse] at h
    split at h
    · exact Outcome.noConfusion h
    · rename_i p m1 hloop
      split_ifs at h with hflag
      obtain ⟨a, b, v0, v1, v2, d, e, f, g, hw⟩ :=
        initCLK_configure_returned c rd fuel _ _ h
      have hw1 : m1.writes = m0.writes ++ [(.RCC_CR, c.RCC_CR_HSEON)] := by
        simpa [ClkRun.write] using hseLoop_writes c rd fuel 0 _ p m1 hloop
      rw [hw]
      simp only [ClkRun.tick, hw1, hw0, List.append_assoc, List.singleton_append,
        List.cons_append, List.nil_append]
      exact ⟨_, _, _, a, b, v0, v1, v2, d, e, f, g, rfl⟩

/-- C9: on the success path `initCLK` writes the three divider codes (AHB `0x0`, APB2 `0x4`,
APB1 `0x5`) to `RCC.CFGR` and then the PLL configuration to `RCC.PLLCFGR`, which is not
written again; with the source bit at position 22 that value decodes to `M = 8`,
`N = 336`, `P = 2`, source HSE, so that with the 8 MHz oscillator
`(8 MHz / M) * N / P = 168 MHz = SYSCLK = HCLK`; code `0x4` divides by 2 and gives
`PCLK2 = 84 MHz`, code `0x5` divides by 4 and gives `PCLK1 = 42 MHz`; APB1 is divided
further than APB2 and neither exceeds its rated maximum. -/
theorem initCLK_clock_plan (c : DeviceConsts) (rd : Nat → Nat) (fuel : Nat) (m : ClkRun)
    (hret : initCLK c rd fuel = .returned m) (hsrc : c.RCC_PLLCFGR_PLLSRC_Pos = 22) :
    (∃ (pre post : List (Reg × Nat)) (v0 v1 v2 : Nat), m.writes = pre ++
        [(.RCC_CFGR, v0 ||| (HPRE_code <<< c.RCC_CFGR_HPRE_Pos)),
         (.RCC_CFGR, v1 ||| (PPRE2_code <<< c.RCC_CFGR_PPRE2_Pos)),
         (.RCC_CFGR, v2 ||| (PPRE1_code <<< c.RCC_CFGR_PPRE1_Pos)),
         (.RCC_PLLCFGR, pllcfgrValue c)] ++ post ∧
        ∀ w ∈ post, w.1 ≠ Reg.RCC_PLLCFGR) ∧
    pllcfgrValue c = 0x07405408 ∧
    pllM (pllcfgrValue c) = 8 ∧ pllN (pllcfgrValue c) = 336 ∧ pllP (pllcfgrValue c) = 2 ∧
    pllSrcIsHSE (pllcfgrValue c) = true ∧
    HSE_VALUE / pllM (pllcfgrValue c) * pllN (pllcfgrValue c) / pllP (pllcfgrValue c) =
      168000000 ∧
    sysclk c = 168000000 ∧ hclk c = 168000000 ∧
    apbPrescaler PPRE2_code = 2 ∧ pclk2 c = 84000000 ∧
    apbPrescaler PPRE1_code = 4 ∧ pclk1 c = 42000000 ∧
    apbPrescaler PPRE2_code < apbPrescaler PPRE1_code ∧
    pclk2 c ≤ APB2_MAX ∧ pclk1 c ≤ APB1_MAX := by
  have hv : pllcfgrValue c = 0x07405408 := by
    simp only [pllcfgrValue, hsrc]
    decide
  obtain ⟨r0, r1, r2, a, b, v0, v1, v2, d, e, f, g, hw⟩ :=
    initCLK_returned_writes c rd fuel m hret
  refine ⟨⟨[(Reg.RCC_CR, r0), (.RCC_CFGR, 0), (.RCC_CR, r1), (.RCC_PLLCFGR, 0x24003010),
      (.RCC_CR, r2), (.RCC_CIR, 0), (.RCC_CR, c.RCC_CR_HSEON), (.RCC_APB1ENR, a),
      (.PWR_CR, b)],
    [(.RCC_CR, d), (.FLASH_ACR,
        c.FLASH_ACR_ICEN ||| c.FLASH_ACR_DCEN ||| (5 <<< c.FLASH_ACR_LATENCY_Pos)),
       (.RCC_CFGR, e), (.RCC_CFGR, f), (.RCC_AHB1ENR, g)], v0, v1, v2, ?_, ?_⟩, hv, ?_⟩
  · rw [hw]
    simp
  · intro w hmem
    simp only [List.mem_cons, List.mem_singleton, List.not_mem_nil, or_false] at hmem
    rcases hmem with h | h | h | h | h <;> rw [h] <;> simp
  · simp only [sysclk, hclk, pclk1, pclk2, pllOutput, hv]
    decide

/-- C9 on the STM32F407 with hardware that behaves: `initCLK` returns after 17 reads and 18
writes; the value left in `RCC.PLLCFGR` is `0x07405408`, the value left in `RCC.CFGR` is
`0x9402`, whose fields HPRE, PPRE2, PPRE1 are `0x0`, `0x4`, `0x5`; the clocks are 168, 84
and 42 MHz. -/
theorem initCLK_clock_plan_witness :
    initCLK stm32f407 readyRd 10 = .returned ⟨17,
      [(.RCC_CR, 0x83), (.RCC_CFGR, 0), (.RCC_CR, 0x83), (.RCC_PLLCFGR, 0x24003010),
       (.RCC_CR, 0x83), (.RCC_CIR, 0), (.RCC_CR, 0x10000),
       (.RCC_APB1ENR, 0x10000000), (.PWR_CR, 0x4000), (.RCC_CFGR, 0), (.RCC_CFGR, 0x8000),
       (.RCC_CFGR, 0x9400), (.RCC_PLLCFGR, 0x07405408), (.RCC_CR, 0x1030083),
       (.FLASH_ACR, 0x605), (.RCC_CFGR, 0x9400), (.RCC_CFGR, 0x9402),
       (.RCC_AHB1ENR, 0x100000)], 1⟩ ∧
    stm32f407.RCC_PLLCFGR_PLLSRC_Pos = 22 ∧
    cfgrHPRE 0x9402 = HPRE_code ∧ cfgrPPRE2 0x9402 = PPRE2_code ∧
    cfgrPPRE1 0x9402 = PPRE1_code ∧
    sysclk stm32f407 = 168000000 ∧ hclk stm32f407 = 168000000 ∧
    pclk2 stm32f407 = 84000000 ∧ pclk1 stm32f407 = 42000000 := by
  have hrun : initCLK stm32f407 readyRd 10 = .returned ⟨17,
      [(.RCC_CR, 0x83), (.RCC_CFGR, 0), (.RCC_CR, 0x83), (.RCC_PLLCFGR, 0x24003010),
       (.RCC_CR, 0x83), (.RCC_CIR, 0), (.RCC_CR, 0x10000),
       (.RCC_APB1ENR, 0x10000000), (.PWR_CR, 0x4000), (.RCC_CFGR, 0), (.RCC_CFGR, 0x8000),
       (.RCC_CFGR, 0x9400), (.RCC_PLLCFGR, 0x07405408), (.RCC_CR, 0x1030083),
       (.FLASH_ACR, 0x605), (.RCC_CFGR, 0x9400), (.RCC_CFGR, 0x9402),
       (.RCC_AHB1ENR, 0x100000)], 1⟩ := by decide
  have h := initCLK_clock_plan stm32f407 readyRd 10 _ hrun rfl
  exact ⟨hrun, rfl, by decide, by decide, by decide, h.2.2.2.2.2.2.2.1, h.2.2.2.2.2.2.2.2.1,
    h.2.2.2.2.2.2.2.2.2.2.1, h.2.2.2.2.2.2.2.2.2.2.2.2.1⟩

end Stm32f407
